import Mathlib

/-!
Verification of the reconciler host adapter (scene-graph renderer).

The development shallowly embeds the JavaScript source:
JS values become the inductive `JSVal` (reference types carry a numeric
object identity; `jsStrictEq` is the JS strict-equality `===`, which is
irreflexive at NaN);
property bags become association lists `List (String × JSVal)`; the
mutable object graph read by nested property lookups becomes an explicit
`Heap`; property assignments become an explicit trace of `Write` records
so that claims counting writes can be stated; fallible JS code (a missing
constructor, a bad property path raising a TypeError in strict mode)
becomes `Except`.
-/

/-- A JavaScript value as used by the adapter. Objects and functions are
identified by reference, modelled as a numeric identity. NaN gets its own
constructor because JS strict equality is irreflexive at NaN, which the
derived structural equality cannot express; `jsStrictEq` below accounts
for it. -/
inductive JSVal where
  | undefined : JSVal
  | boolean : Bool → JSVal
  | num : Int → JSVal
  | nan : JSVal
  | str : String → JSVal
  | fn : Nat → JSVal
  | obj : Nat → JSVal
deriving DecidableEq, Repr

/-- The object graph: which field of which object holds which value.
Used by the Property Applier to resolve nested lookup chains such as
the material sub-object of a node. -/
abbrev Heap := List (Nat × String × JSVal)

/-- Reading field `f` of object `o`, yielding `undefined` when absent,
as JS property access does. -/
def lookupField (h : Heap) (o : Nat) (f : String) : JSVal :=
  ((h.find? (fun e => e.1 == o && e.2.1 == f)).map (fun e => e.2.2)).getD JSVal.undefined

/-- One property assignment `target[field] = value` performed by the
Property Applier, recorded instead of mutating, so writes can be counted. -/
structure Write where
  target : Nat
  field : String
  value : JSVal
deriving DecidableEq, Repr

/-- `newProps[key]` / `oldProps[key]`: JS property read on a bag,
`undefined` when the key is absent. -/
def propGet (props : List (String × JSVal)) (k : String) : JSVal :=
  ((props.find? (fun p => p.1 == k)).map (fun p => p.2)).getD JSVal.undefined

/-- `typeof v === 'function'`. -/
def isFunction : JSVal → Bool
  | JSVal.fn _ => true
  | _ => false

/-- JS strict equality `===`: never true at NaN (`NaN === NaN` is false),
value comparison on primitives and reference comparison on objects and
functions otherwise. -/
def jsStrictEq (a b : JSVal) : Bool :=
  match a, b with
  | JSVal.nan, _ => false
  | _, JSVal.nan => false
  | a, b => a == b

/-- `key.toLowerCase()` (the keys in play are ASCII, where the JS
lowercasing is per-character). -/
def jsToLower (s : String) : String :=
  String.mk (s.data.map Char.toLower)

/-- `key.split('-')` for the single-character separator used by the
Property Applier. -/
def jsSplitDash (s : String) : List String :=
  (s.data.splitOn '-').map String.mk

/-- `s.startsWith(p)`. -/
def jsStartsWith (s p : String) : Bool :=
  s.data.take p.data.length == p.data

/-- `Object.keys(newProps).filter(key => newProps[key] === oldProps[key])`
from applyProps. -/
def sameProps (newProps oldProps : List (String × JSVal)) : List String :=
  (newProps.map Prod.fst).filter (fun k => jsStrictEq (propGet newProps k) (propGet oldProps k))

/-- `Object.keys(newProps).filter(key => typeof newProps[key] === 'function' && key.startsWith('on'))`
from applyProps. -/
def handlers (newProps : List (String × JSVal)) : List String :=
  (newProps.map Prod.fst).filter (fun k => isFunction (propGet newProps k) && jsStartsWith k "on")

/-- The reserved structural keys always omitted by applyProps. -/
def structuralKeys : List String := ["children", "key", "ref"]

/-- `omit(newProps, [...sameProps, ...handlers, 'children', 'key', 'ref'])`:
the entries of the new bag that survive the partition and become candidate
writes. -/
def filteredProps (newProps oldProps : List (String × JSVal)) : List (String × JSVal) :=
  newProps.filter (fun p =>
    !((sameProps newProps oldProps).contains p.1
      || (handlers newProps).contains p.1
      || structuralKeys.contains p.1))

/-- `entries.reverse().reduce((acc, key) => acc[key.toLowerCase()], instance)`:
follow the chain of nested-object lookups from the node. A segment that does
not resolve to an object is the bad-property-path error (a strict-mode
TypeError in JS), modelled as `none`. -/
def resolveTarget (h : Heap) (o : Nat) : List String → Option Nat
  | [] => some o
  | s :: rest =>
    match lookupField h o (jsToLower s) with
    | JSVal.obj n => resolveTarget h n rest
    | _ => none

/-- One candidate write: `const [targetName, ...entries] = key.split('-').reverse()`,
resolve the prefix chain, then `target[targetName.toLowerCase()] = value`. -/
def writeOfKey (h : Heap) (inst : Nat) (k : String) (v : JSVal) : Option Write :=
  match (jsSplitDash k).reverse with
  | [] => none
  | targetName :: entries =>
    (resolveTarget h inst entries.reverse).map (fun t => ⟨t, jsToLower targetName, v⟩)

/-- The iteration `Object.entries(filteredProps).map(...)` of applyProps:
perform each candidate write in order, failing on a bad property path. -/
def applyWrites (h : Heap) (inst : Nat) : List (String × JSVal) → Except String (List Write)
  | [] => Except.ok []
  | (k, v) :: rest =>
    match writeOfKey h inst k v with
    | some w => (applyWrites h inst rest).map (fun ws => w :: ws)
    | none => Except.error k

/-- `applyProps(instance, newProps, oldProps)`: partition the new bag,
short-circuit when nothing is left, otherwise perform the candidate writes.
Returns the trace of writes performed. -/
def applyProps (h : Heap) (inst : Nat) (newProps oldProps : List (String × JSVal)) :
    Except String (List Write) :=
  let fp := filteredProps newProps oldProps
  if fp.length > 0 then applyWrites h inst fp else Except.ok []

/-- `commitUpdate(instance, updatePayload, type, oldProps, newProps)`:
delegates to applyProps with the node and both bags. -/
def commitUpdate (h : Heap) (inst : Nat) (_updatePayload : Unit) (_ty : String)
    (oldProps newProps : List (String × JSVal)) : Except String (List Write) :=
  applyProps h inst newProps oldProps

/-- `Array.prototype.slice` index resolution: a negative index counts from
the end and clamps at zero, a non-negative index clamps at the length. -/
def jsSliceIndex (len : Nat) (i : Int) : Nat :=
  if i < 0 then (len + i).toNat else min i.toNat len

/-- `arr.slice(start, stop)` on a list, with the JS treatment of negative
and out-of-range indices. -/
def jsSlice (l : List α) (start stop : Int) : List α :=
  let k := jsSliceIndex l.length start
  let fin := jsSliceIndex l.length stop
  (l.drop k).take (fin - k)

/-- Position of the first occurrence, if any; helper for `jsIndexOf`. -/
def jsIndexOfAux : List Nat → Nat → Option Nat
  | [], _ => none
  | y :: ys, x => if y = x then some 0 else (jsIndexOfAux ys x).map (fun n => n + 1)

/-- `arr.indexOf(x)`: index of the first occurrence, `-1` when absent.
Nodes are compared by reference, here by numeric identity. -/
def jsIndexOf (l : List Nat) (x : Nat) : Int :=
  ((jsIndexOfAux l x).map (fun n => (n : Int))).getD (-1)

/-- The effect of `insertBefore(parentInstance, child, beforeChild)` on the
children sequence of the parent: when the child is non-falsy (`some`), the
sequence is rebuilt as
`[...children.slice(0, index), child, ...children.slice(index)]` with
`index = children.indexOf(beforeChild)`; a falsy child (`none`) leaves the
sequence untouched. The parent back-reference and the attached notification
set on the child do not affect the children sequence and are not modelled. -/
def insertBefore (children : List Nat) (child : Option Nat) (beforeChild : Nat) : List Nat :=
  match child with
  | none => children
  | some c =>
    let index := jsIndexOf children beforeChild
    jsSlice children 0 index ++ c :: jsSlice children index children.length

/-- `upperFirst(type)` from lodash: upper-case the first character. -/
def upperFirst (s : String) : String :=
  match s.data with
  | [] => ""
  | c :: cs => String.mk (c.toUpper :: cs)

/-- The two unguarded failures a creation call can surface: the type tag
resolving to no constructor in the runtime namespace (a TypeError from
`new THREE[...]()` on `undefined`), or a bad property path raised while the
initial bag is applied. -/
inductive CreateError where
  | noConstructor (name : String)
  | badPath (key : String)
deriving DecidableEq, Repr

/-- `createInstance(type, props, ...)`: look up the constructor named by the
upper-cased type tag in the scene-graph runtime namespace `ns` (modelled as
the list of constructor names it defines), construct the node (the fresh
object identity `fresh`, whose constructor-initialised fields are the part
of `h` reachable from it), then apply the full initial bag against an empty
old bag. Nothing is caught: either error is returned as-is. -/
def createInstance (ns : List String) (h : Heap) (fresh : Nat) (ty : String)
    (props : List (String × JSVal)) : Except CreateError (Nat × List Write) :=
  if ns.contains (upperFirst ty) then
    match applyProps h fresh props [] with
    | Except.ok ws => Except.ok (fresh, ws)
    | Except.error k => Except.error (CreateError.badPath k)
  else
    Except.error (CreateError.noConstructor (upperFirst ty))

/-- The module-level bookkeeping of the mount entry points: the
`roots = new Map()` table from mount target to reconciler root handle, plus
an allocator standing for `Renderer.createContainer` producing a fresh
opaque root handle. -/
structure RenderState where
  roots : List (Nat × Nat)
  nextRoot : Nat
deriving DecidableEq, Repr

/-- `render(element, container)`: reuse the root registered for the target,
or lazily create and register one; returns the updated table and the root
handle used (`updateContainer` and `getPublicRootInstance` are opaque calls
into the external engine and do not touch the table). -/
def render (s : RenderState) (container : Nat) : RenderState × Nat :=
  match s.roots.find? (fun p => p.1 == container) with
  | some p => (s, p.2)
  | none =>
    let r := s.nextRoot
    ({ roots := (container, r) :: s.roots, nextRoot := r + 1 }, r)

/-- `unmountComponentAtNode(container)`: when the target is registered,
tear down through the engine and delete the table entry (the completion
callback passed to `updateContainer`, which the engine invokes);
otherwise do nothing. -/
def unmountComponentAtNode (s : RenderState) (container : Nat) : RenderState :=
  match s.roots.find? (fun p => p.1 == container) with
  | some _ => { s with roots := s.roots.filter (fun p => !(p.1 == container)) }
  | none => s

/-! Shared lemmas about strict equality and the property partition. -/

theorem jsStrictEq_refl (v : JSVal) (hv : v ≠ JSVal.nan) : jsStrictEq v v = true := by
  cases v <;> first | exact absurd rfl hv | exact beq_self_eq_true _

theorem jsStrictEq_undefined_right (v : JSVal) (hv : v ≠ JSVal.undefined) :
    jsStrictEq v JSVal.undefined = false := by
  cases v <;> first | exact absurd rfl hv | rfl

/-- A bag read returns `undefined` or the value of one of the bag's
entries. -/
theorem propGet_mem_or_undefined (P : List (String × JSVal)) (k : String) :
    propGet P k = JSVal.undefined ∨ ∃ p ∈ P, propGet P k = p.2 := by
  unfold propGet
  cases hf : P.find? (fun q => q.1 == k) with
  | none => left; rfl
  | some p => right; exact ⟨p, List.mem_of_find?_eq_some hf, rfl⟩

theorem sameProps_self_no_nan (P : List (String × JSVal))
    (hP : ∀ p ∈ P, p.2 ≠ JSVal.nan) : sameProps P P = P.map Prod.fst := by
  unfold sameProps
  apply List.filter_eq_self.mpr
  intro k _
  rcases propGet_mem_or_undefined P k with hund | ⟨q, hq, hval⟩
  · rw [hund]; rfl
  · rw [hval]; exact jsStrictEq_refl q.2 (hP q hq)

theorem filteredProps_self_no_nan (P : List (String × JSVal))
    (hP : ∀ p ∈ P, p.2 ≠ JSVal.nan) : filteredProps P P = [] := by
  unfold filteredProps
  apply List.filter_eq_nil_iff.mpr
  intro p hp
  have h1 : p.1 ∈ P.map Prod.fst := List.mem_map_of_mem Prod.fst hp
  simp [sameProps_self_no_nan P hP, h1]

/-- Claim C4 (amended): committing an update whose old bag and new bag are
the same bag performs zero writes provided no value in the bag is NaN —
every key is then classified as unchanged (the candidate-write list is
empty) and the applier short-circuits. A NaN value is never strictly equal
to anything, itself included, so a NaN-valued key escapes the unchanged
classification and is re-written on every update; see the counterexample
below. -/
theorem commitUpdate_same_bag_zero_writes (h : Heap) (inst : Nat) (ty : String)
    (P : List (String × JSVal)) (hP : ∀ p ∈ P, p.2 ≠ JSVal.nan) :
    filteredProps P P = [] ∧ commitUpdate h inst () ty P P = Except.ok [] := by
  refine ⟨filteredProps_self_no_nan P hP, ?_⟩
  unfold commitUpdate applyProps
  simp [filteredProps_self_no_nan P hP]

/-- Witness for claim C4: a same-bag update over an ordinary numeric value
performs zero writes. -/
theorem commitUpdate_same_bag_zero_writes_witness :
    filteredProps [("a", JSVal.num 1)] [("a", JSVal.num 1)] = []
    ∧ commitUpdate [] 0 () "mesh" [("a", JSVal.num 1)] [("a", JSVal.num 1)] = Except.ok [] :=
  commitUpdate_same_bag_zero_writes [] 0 "mesh" [("a", JSVal.num 1)] (by decide)

/-- Counterexample to claim C4 as stated: with old bag and new bag the very
same bag holding a NaN value, the key is not classified as unchanged
(`NaN === NaN` is false in JS), the short-circuit is defeated, and the
update performs a write — the same NaN is re-assigned — instead of zero
writes. -/
theorem commitUpdate_nan_same_bag_writes :
    commitUpdate [] 0 () "mesh" [("opacity", JSVal.nan)] [("opacity", JSVal.nan)]
      = Except.ok [{ target := 0, field := "opacity", value := JSVal.nan }]
    ∧ commitUpdate [] 0 () "mesh" [("opacity", JSVal.nan)] [("opacity", JSVal.nan)]
      ≠ Except.ok [] := by
  have h1 : commitUpdate [] 0 () "mesh" [("opacity", JSVal.nan)] [("opacity", JSVal.nan)]
      = Except.ok [{ target := 0, field := "opacity", value := JSVal.nan }] := rfl
  refine ⟨h1, ?_⟩
  rw [h1]
  simp

/-- Claim C3: a new bag all of whose keys are callable values under the
handler naming convention (name starting with `on`) or reserved structural
keys (`children`, `key`, `ref`) produces zero writes, whatever the node
and old bag. -/
theorem applyProps_handlers_structural_zero_writes (h : Heap) (inst : Nat)
    (newProps oldProps : List (String × JSVal))
    (hk : ∀ p ∈ newProps,
      (isFunction (propGet newProps p.1) = true ∧ jsStartsWith p.1 "on" = true)
      ∨ p.1 ∈ structuralKeys) :
    applyProps h inst newProps oldProps = Except.ok [] := by
  have hfp : filteredProps newProps oldProps = [] := by
    unfold filteredProps
    apply List.filter_eq_nil_iff.mpr
    intro p hp
    rcases hk p hp with ⟨hf, hs⟩ | hstruct
    · have h1 : p.1 ∈ handlers newProps := by
        unfold handlers
        exact List.mem_filter.mpr ⟨List.mem_map_of_mem Prod.fst hp, by simp [hf, hs]⟩
      simp [h1]
    · simp [hstruct]
  unfold applyProps
  simp [hfp]

/-- Witness for claim C3: the bag with a click handler, children and a key
against an empty old bag performs zero writes. -/
theorem applyProps_handlers_structural_zero_writes_witness :
    applyProps [] 0 [("onClick", JSVal.fn 7), ("children", JSVal.obj 2), ("key", JSVal.str "k")] []
      = Except.ok [] :=
  applyProps_handlers_structural_zero_writes [] 0 _ [] (by decide)

/-- Claim C2: on a node whose `material` field holds a sub-object, applying
a new bag with the single key `material-color` against an empty old bag
performs exactly one write, assigning the value to the `color` field of the
material sub-object; the write trace contains nothing else. The value must
be defined, since a bag value of `undefined` is classified as unchanged
against the absent old entry. -/
theorem applyProps_material_color_single_write (h : Heap) (node m : Nat) (X : JSVal)
    (hm : lookupField h node "material" = JSVal.obj m)
    (hX : X ≠ JSVal.undefined) :
    applyProps h node [("material-color", X)] [] =
      Except.ok [{ target := m, field := "color", value := X }] := by
  have hbx : jsStrictEq X JSVal.undefined = false := jsStrictEq_undefined_right X hX
  have hfp : filteredProps [("material-color", X)] [] = [("material-color", X)] := by
    simp [filteredProps, sameProps, handlers, propGet, structuralKeys, hbx,
      isFunction, jsStartsWith]
  have hsplit : jsSplitDash "material-color" = ["material", "color"] := by decide
  have hlow : jsToLower "material" = "material" := by decide
  have hlow2 : jsToLower "color" = "color" := by decide
  unfold applyProps
  rw [hfp]
  simp [applyWrites, writeOfKey, hsplit, resolveTarget, hlow, hlow2, hm, Except.map]

/-- Witness for claim C2: with the material sub-object at identity 1, the
single write lands on its color field. -/
theorem applyProps_material_color_single_write_witness :
    applyProps [(0, "material", JSVal.obj 1)] 0 [("material-color", JSVal.num 5)] [] =
      Except.ok [{ target := 1, field := "color", value := JSVal.num 5 }] :=
  applyProps_material_color_single_write _ 0 1 (JSVal.num 5) (by decide) (by decide)

/-- Claim C10: every path segment, the leaf field name included, is
lowercased before assignment: the separator-free key `castShadow` is
written to the all-lowercase field `castshadow` of the node, which differs
from the original casing. -/
theorem applyProps_lowercases_leaf_field (h : Heap) (inst : Nat) (v : JSVal)
    (hv : v ≠ JSVal.undefined) :
    applyProps h inst [("castShadow", v)] [] =
      Except.ok [{ target := inst, field := "castshadow", value := v }]
    ∧ ("castshadow" : String) ≠ "castShadow" := by
  have hbv : jsStrictEq v JSVal.undefined = false := jsStrictEq_undefined_right v hv
  refine ⟨?_, by decide⟩
  have hfp : filteredProps [("castShadow", v)] [] = [("castShadow", v)] := by
    simp [filteredProps, sameProps, handlers, propGet, structuralKeys, hbv,
      isFunction, jsStartsWith]
  have hsplit : jsSplitDash "castShadow" = ["castShadow"] := by decide
  have hlow : jsToLower "castShadow" = "castshadow" := by decide
  unfold applyProps
  rw [hfp]
  simp [applyWrites, writeOfKey, hsplit, resolveTarget, hlow, Except.map]

/-- Witness for claim C10: a boolean shadow flag is written to the
lowercased field. -/
theorem applyProps_lowercases_leaf_field_witness :
    applyProps [] 0 [("castShadow", JSVal.boolean true)] [] =
      Except.ok [{ target := 0, field := "castshadow", value := JSVal.boolean true }] :=
  (applyProps_lowercases_leaf_field [] 0 (JSVal.boolean true) (by decide)).1

/-- Every write the iteration performs comes from one of the candidate
entries it was given. -/
theorem applyWrites_mem (h : Heap) (inst : Nat) :
    ∀ fp ws, applyWrites h inst fp = Except.ok ws →
      ∀ w ∈ ws, ∃ k v, (k, v) ∈ fp ∧ writeOfKey h inst k v = some w := by
  intro fp
  induction fp with
  | nil =>
    intro ws hws w hw
    simp [applyWrites] at hws
    subst hws
    simp at hw
  | cons p rest ih =>
    intro ws hws w hw
    obtain ⟨k, v⟩ := p
    unfold applyWrites at hws
    cases hwk : writeOfKey h inst k v with
    | none => rw [hwk] at hws; exact absurd hws (by simp)
    | some w0 =>
      rw [hwk] at hws
      cases hrest : applyWrites h inst rest with
      | error e => rw [hrest] at hws; exact absurd hws (by simp [Except.map])
      | ok ws0 =>
        rw [hrest] at hws
        simp [Except.map] at hws
        subst hws
        rcases List.mem_cons.mp hw with hw0 | hwrest
        · exact ⟨k, v, List.mem_cons_self _ _, hw0 ▸ hwk⟩
        · obtain ⟨k1, v1, hmem, hwrite⟩ := ih ws0 hrest w hwrest
          exact ⟨k1, v1, List.mem_cons_of_mem _ hmem, hwrite⟩

/-- Claim C8: the Property Applier writes only to paths derived from keys of
the new bag — every write in the trace is produced by some entry of the new
bag, so a key present only in the old bag causes no write and the field it
once set retains its last value. -/
theorem applyProps_writes_from_new_bag (h : Heap) (inst : Nat)
    (newProps oldProps : List (String × JSVal)) (ws : List Write)
    (hok : applyProps h inst newProps oldProps = Except.ok ws) :
    ∀ w ∈ ws, ∃ k v, (k, v) ∈ newProps ∧ writeOfKey h inst k v = some w := by
  intro w hw
  unfold applyProps at hok
  by_cases hlen : (filteredProps newProps oldProps).length > 0
  · rw [if_pos hlen] at hok
    obtain ⟨k, v, hmem, hwrite⟩ := applyWrites_mem h inst _ ws hok w hw
    exact ⟨k, v, (List.mem_filter.mp hmem).1, hwrite⟩
  · rw [if_neg hlen] at hok
    simp at hok
    subst hok
    simp at hw

/-- Witness for claim C8: the write performed for the bag with single key
`a` (against an old bag holding the unrelated key `b`) is produced by the
entry for `a` in the new bag. -/
theorem applyProps_writes_from_new_bag_witness :
    ∃ k v, (k, v) ∈ [("a", JSVal.num 1)] ∧
      writeOfKey [] 0 k v = some { target := 0, field := "a", value := JSVal.num 1 } :=
  applyProps_writes_from_new_bag [] 0 [("a", JSVal.num 1)] [("b", JSVal.num 2)] _
    rfl _ (List.mem_singleton.mpr rfl)

/-! Lemmas about the JS array primitives used by insertBefore. -/

theorem jsIndexOfAux_append_cons (l1 l2 : List Nat) (b : Nat) (hb : b ∉ l1) :
    jsIndexOfAux (l1 ++ b :: l2) b = some l1.length := by
  induction l1 with
  | nil => simp [jsIndexOfAux]
  | cons a l ih =>
    have hab : a ≠ b := fun hcontr => hb (hcontr ▸ List.mem_cons_self a l)
    have hbl : b ∉ l := fun hcontr => hb (List.mem_cons_of_mem a hcontr)
    simp [jsIndexOfAux, hab, ih hbl]

theorem jsIndexOfAux_eq_none (l : List Nat) (b : Nat) (hb : b ∉ l) :
    jsIndexOfAux l b = none := by
  induction l with
  | nil => rfl
  | cons a t ih =>
    have hab : a ≠ b := fun hcontr => hb (hcontr ▸ List.mem_cons_self a t)
    have hbt : b ∉ t := fun hcontr => hb (List.mem_cons_of_mem a hcontr)
    simp [jsIndexOfAux, hab, ih hbt]

theorem jsSliceIndex_natCast (len n : Nat) : jsSliceIndex len (n : Int) = min n len := by
  unfold jsSliceIndex
  rw [if_neg (by omega : ¬ (n : Int) < 0)]
  simp

theorem jsSliceIndex_negOne (len : Nat) : jsSliceIndex len (-1) = len - 1 := by
  unfold jsSliceIndex
  rw [if_pos (by omega : (-1 : Int) < 0)]
  omega

theorem jsSlice_zero_nat (l : List α) (n : Nat) :
    jsSlice l 0 (n : Int) = l.take n := by
  unfold jsSlice
  rw [show (0 : Int) = ((0 : Nat) : Int) from rfl, jsSliceIndex_natCast, jsSliceIndex_natCast]
  simp only [Nat.zero_min, List.drop_zero, Nat.sub_zero]
  exact List.take_eq_take.mpr (by omega)

theorem jsSlice_nat_length (l : List α) (n : Nat) (hn : n ≤ l.length) :
    jsSlice l (n : Int) (l.length : Int) = l.drop n := by
  unfold jsSlice
  rw [jsSliceIndex_natCast, jsSliceIndex_natCast, min_eq_left hn, min_self]
  exact List.take_of_length_le (by simp)

/-- Claim C1: when `beforeChild` occurs in the children sequence (at its
first occurrence), inserting a non-falsy `child` rebuilds the sequence with
`child` immediately before `beforeChild`, and every other sibling keeps its
relative order. -/
theorem insertBefore_present (l1 l2 : List Nat) (b c : Nat) (hb : b ∉ l1) :
    insertBefore (l1 ++ b :: l2) (some c) b = l1 ++ c :: b :: l2 := by
  unfold insertBefore
  have hidx : jsIndexOf (l1 ++ b :: l2) b = (l1.length : Int) := by
    simp [jsIndexOf, jsIndexOfAux_append_cons l1 l2 b hb]
  dsimp only
  rw [hidx, jsSlice_zero_nat, jsSlice_nat_length _ _ (by simp)]
  rw [List.take_left, List.drop_left]

/-- Witness for claim C1: with children `[A, C]` (identities 1 and 3),
inserting `B` (identity 2) before `C` yields `[A, B, C]`. -/
theorem insertBefore_present_witness :
    insertBefore [1, 3] (some 2) 3 = [1, 2, 3] :=
  insertBefore_present [1] [] 3 2 (by decide)

/-- Claim C9: when `beforeChild` is not in the (non-empty) children
sequence, `indexOf` yields `-1` and the negative-index slices place the
child immediately before the last existing element — neither appended at
the end nor rejected. -/
theorem insertBefore_absent (l : List Nat) (a c b : Nat) (hb : b ∉ l ++ [a]) :
    insertBefore (l ++ [a]) (some c) b = l ++ c :: [a] := by
  unfold insertBefore
  have hidx : jsIndexOf (l ++ [a]) b = -1 := by
    simp [jsIndexOf, jsIndexOfAux_eq_none _ _ hb]
  dsimp only
  rw [hidx]
  unfold jsSlice
  dsimp only
  rw [jsSliceIndex_negOne,
    show jsSliceIndex (l ++ [a]).length 0 = 0 from by simp [jsSliceIndex],
    show jsSliceIndex (l ++ [a]).length ((l ++ [a]).length : Int) = (l ++ [a]).length from by
      rw [jsSliceIndex_natCast, min_self]]
  simp only [List.length_append, List.length_singleton, Nat.add_sub_cancel, List.drop_zero,
    Nat.sub_zero]
  rw [List.take_left, List.drop_left]
  simp

/-- Witness for claim C9: with children `[A, C]` and a `beforeChild` that is
not among them, the child still lands immediately before the last element:
`[A, B, C]`. -/
theorem insertBefore_absent_witness :
    insertBefore [1, 3] (some 2) 99 = [1, 2, 3] :=
  insertBefore_absent [1] 3 2 99 (by decide)

/-- Claim C5 (amended): creation looks up the constructor named by the
upper-cased type tag and raises the no-constructor error exactly when the
runtime namespace lacks it; when the constructor exists, the call succeeds
exactly when applying the full initial bag against an empty old bag
succeeds, returning the freshly constructed node and that application's
writes. Neither error is caught, retried or replaced by a fallback: it is
returned as-is to the caller. -/
theorem createInstance_resolution (ns : List String) (h : Heap) (fresh : Nat)
    (ty : String) (props : List (String × JSVal)) :
    ((createInstance ns h fresh ty props
        = Except.error (CreateError.noConstructor (upperFirst ty)))
      ↔ ns.contains (upperFirst ty) = false)
    ∧ (∀ ws, createInstance ns h fresh ty props = Except.ok (fresh, ws)
        ↔ (ns.contains (upperFirst ty) = true
            ∧ applyProps h fresh props [] = Except.ok ws)) := by
  unfold createInstance
  by_cases hc : ns.contains (upperFirst ty) = true
  · rw [if_pos hc]
    have hmem : upperFirst ty ∈ ns := by simpa using hc
    cases happ : applyProps h fresh props [] with
    | ok ws0 => simp [happ, hmem]
    | error k => simp [happ, hmem]
  · rw [if_neg hc]
    have hmem : upperFirst ty ∉ ns := by simpa using hc
    simp [hmem]

/-- Counterexample to claim C5 as stated: with the constructor `Mesh`
present in the namespace, creating a `mesh` whose initial bag holds a key
naming a lookup chain the fresh instance does not have raises an error even
though the type tag has a matching constructor — creation does not raise
*only* on an unresolvable tag. -/
theorem createInstance_error_despite_constructor :
    (["Mesh"] : List String).contains (upperFirst "mesh") = true
    ∧ createInstance ["Mesh"] [] 0 "mesh" [("nonexistent-color", JSVal.num 1)]
        = Except.error (CreateError.badPath "nonexistent-color") :=
  ⟨by decide, rfl⟩

/-- Claim C6: a second `render` call on the same target reuses the root
handle created by the first call — it returns the same handle and leaves
the table unchanged — and `render` preserves the invariant that the table
holds at most one entry per target. -/
theorem render_reuses_root (s : RenderState) (t : Nat)
    (hnd : (s.roots.map Prod.fst).Nodup) :
    render (render s t).1 t = render s t
    ∧ ((render s t).1.roots.map Prod.fst).Nodup := by
  cases hfind : s.roots.find? (fun p => p.1 == t) with
  | some p =>
    constructor
    · simp [render, hfind]
    · simp [render, hfind, hnd]
  | none =>
    have hnotin : t ∉ s.roots.map Prod.fst := by
      intro hmem
      obtain ⟨q, hq, hq1⟩ := List.mem_map.mp hmem
      have := List.find?_eq_none.mp hfind q hq
      simp [hq1] at this
    constructor
    · simp [render, hfind]
    · simp [render, hfind, List.nodup_cons, hnotin, hnd]

/-- Witness for claim C6: starting from the empty table, rendering twice to
target 5 reuses the root and keeps the table duplicate-free. -/
theorem render_reuses_root_witness :
    render (render ⟨[], 0⟩ 5).1 5 = render ⟨[], 0⟩ 5
    ∧ ((render (⟨[], 0⟩ : RenderState) 5).1.roots.map Prod.fst).Nodup :=
  render_reuses_root ⟨[], 0⟩ 5 (by decide)

/-- Claim C7: unmounting removes the table entry for the target (the table
afterwards has no entry for it), is a no-op on an unregistered target, and
a subsequent `render` on that target allocates a root handle distinct from
every root previously registered — a fresh root, not the old one. -/
theorem unmount_removes_entry (s : RenderState) (t : Nat)
    (hroots : ∀ p ∈ s.roots, p.2 < s.nextRoot) :
    (unmountComponentAtNode s t).roots.find? (fun p => p.1 == t) = none
    ∧ (s.roots.find? (fun p => p.1 == t) = none → unmountComponentAtNode s t = s)
    ∧ (∀ r, (t, r) ∈ s.roots → (render (unmountComponentAtNode s t) t).2 ≠ r) := by
  have hgone : (unmountComponentAtNode s t).roots.find? (fun p => p.1 == t) = none := by
    unfold unmountComponentAtNode
    cases hfind : s.roots.find? (fun p => p.1 == t) with
    | some p =>
      dsimp only
      apply List.find?_eq_none.mpr
      intro q hq
      have := (List.mem_filter.mp hq).2
      simpa using this
    | none => exact hfind
  refine ⟨hgone, ?_, ?_⟩
  · intro hnone
    unfold unmountComponentAtNode
    rw [hnone]
  · intro r hmem hcontr
    have hnext : (render (unmountComponentAtNode s t) t).2
        = (unmountComponentAtNode s t).nextRoot := by
      unfold render
      rw [hgone]
    have hsame : (unmountComponentAtNode s t).nextRoot = s.nextRoot := by
      unfold unmountComponentAtNode
      cases hfind : s.roots.find? (fun p => p.1 == t) <;> rfl
    have hlt : r < s.nextRoot := hroots (t, r) hmem
    rw [hnext, hsame] at hcontr
    omega

/-- Witness for claim C7: with target 5 registered to root 0, unmounting
clears the entry and a fresh render yields a different root handle. -/
theorem unmount_removes_entry_witness :
    (unmountComponentAtNode ⟨[(5, 0)], 1⟩ 5).roots.find? (fun p => p.1 == 5) = none
    ∧ (render (unmountComponentAtNode ⟨[(5, 0)], 1⟩ 5) 5).2 ≠ 0 :=
  ⟨(unmount_removes_entry ⟨[(5, 0)], 1⟩ 5 (by decide)).1,
   (unmount_removes_entry ⟨[(5, 0)], 1⟩ 5 (by decide)).2.2 0 (by decide)⟩
